import Mathlib

/-!
Verification of the coordination layer of the venturemind backend against its
natural-language specification.

The development shallowly embeds, in Lean:

* the five Lua scripts of `backend/app/core/atomic_operations.py`
  (`assign_task`, `document_edit`, `coordinate_agents`, `rate_limit`,
  `ordered_message`) together with their Python wrapper methods,
* the in-process connection registry of
  `backend/app/core/websocket_manager.py` (pause queues, document locks,
  disconnect cleanup),
* the supervisor state machine of `backend/app/orchestration/supervisor.py`
  (decision parsing, the supervisor/gather/approval/finalize nodes and the
  graph routing).

The backing Redis store is modelled as a record of per-keyspace finite maps
(total functions from keys to `Option`/`List` values); each Lua script becomes
a pure function from a store state to a result together with the next store
state — this is faithful because Redis executes each script atomically, so
concurrent calls serialize into exactly such a sequence of pure steps.
Machine integers are modelled as `Int`/`Nat` (the Python/Lua values involved
are small and unbounded-precision); wall-clock values (`int(time())`,
`datetime.utcnow().isoformat()`) are passed as explicit parameters.
-/

/-- Pointwise update of a string-keyed map, the model of writing one Redis key
(or one hash field of one key). -/
def upd {α : Type} (m : String → α) (k : String) (v : α) : String → α :=
  fun q => if q = k then v else m q

@[simp] theorem upd_same {α : Type} (m : String → α) (k : String) (v : α) :
    upd m k v k = v := by
  simp [upd]

@[simp] theorem upd_other {α : Type} (m : String → α) (k q : String) (v : α)
    (h : q ≠ k) : upd m k v q = m q := by
  simp [upd, h]

/-- The JSON object produced by the `ordered_message` Lua script
(`cjson.encode{sequence, sender, message, timestamp}`).  The encoded string is
modelled by the record itself; `cjson.encode` is injective on these fields, so
sorted-set member equality coincides with record equality. -/
structure OrderedMsg where
  sequence : Int
  sender : String
  message : String
  timestamp : String
deriving DecidableEq, Repr

/-- The shared Redis store, one field per keyspace used by the five scripts:
`agent:<id>` hash fields, `task:<id>` strings, `doc:<id>` hash fields and
history list, `lock:doc:<id>`, `coord:<id>` hash fields and member set,
rate-limit sorted sets, and `<channel>:meta` / `<channel>:messages`.
TTL-carrying writes (`SETEX`, `EXPIRE`) store the TTL alongside the value;
clock advance / expiry is not exercised by any modelled operation. -/
structure RedisState where
  /-- `HGET agent:<id> status` -/
  agentStatus : String → Option String
  /-- `HGET agent:<id> current_task` -/
  agentCurrentTask : String → Option String
  /-- `HGET agent:<id> coordination_group` -/
  agentCoordGroup : String → Option String
  /-- `agent:<id>:tasks` list, newest first (`LPUSH`) -/
  agentTasks : String → List String
  /-- plain string keys written with `SETEX` (task payloads): value and TTL -/
  kv : String → Option (String × Nat)
  /-- `HGET doc:<id> version` -/
  docVersion : String → Option Int
  /-- `HGET doc:<id> last_editor` -/
  docLastEditor : String → Option String
  /-- `HGET doc:<id> updated_at` -/
  docUpdatedAt : String → Option String
  /-- `doc:<id>:history` list, newest first -/
  docHistory : String → List String
  /-- `lock:doc:<id>`: owner and TTL -/
  lockDoc : String → Option (String × Nat)
  /-- `HGET coord:<id> coordinator` -/
  coordCoordinator : String → Option String
  /-- `HGET coord:<id> agents` (the JSON-encoded id list, kept as the list) -/
  coordAgents : String → Option (List String)
  /-- `HGET coord:<id> task` -/
  coordTask : String → Option String
  /-- `HGET coord:<id> status` -/
  coordStatus : String → Option String
  /-- `coord:<id>:members` set (`SADD`), insertion order -/
  coordMembers : String → List String
  /-- rate-limit sorted set: member and score are both the timestamp -/
  rate : String → List Int
  /-- TTL set by `EXPIRE` on the rate key -/
  rateTtl : String → Option Int
  /-- `HGET <channel>:meta sequence`; `HINCRBY` treats a missing field as 0 -/
  channelSeq : String → Int
  /-- `<channel>:messages` sorted set, ascending by score -/
  channelMessages : String → List (Int × OrderedMsg)

/-- The empty store. -/
def freshRedis : RedisState where
  agentStatus := fun _ => none
  agentCurrentTask := fun _ => none
  agentCoordGroup := fun _ => none
  agentTasks := fun _ => []
  kv := fun _ => none
  docVersion := fun _ => none
  docLastEditor := fun _ => none
  docUpdatedAt := fun _ => none
  docHistory := fun _ => []
  lockDoc := fun _ => none
  coordCoordinator := fun _ => none
  coordAgents := fun _ => none
  coordTask := fun _ => none
  coordStatus := fun _ => none
  coordMembers := fun _ => []
  rate := fun _ => []
  rateTtl := fun _ => none
  channelSeq := fun _ => 0
  channelMessages := fun _ => []

/-! ### `assign_task` (atomic_operations.py lines 25-50) -/

/-- The `assign_task` Lua script.  Checks `status` (`HGET`, absent field is
falsy so `none` fails the availability test exactly like Lua `nil`), then
`current_task`, then performs the four writes.  Key of `agentTasks` is the
agent id (standing for `agent:<id>:tasks`). -/
def assignTaskScript (s : RedisState) (agent_id task_key task_data : String)
    (ttl : Nat) : (Bool × String) × RedisState :=
  let agent_state := s.agentStatus agent_id
  if agent_state ≠ some "active" ∧ agent_state ≠ some "idle" then
    ((false, "Agent not available"), s)
  else
    match s.agentCurrentTask agent_id with
    | some _ => ((false, "Agent busy"), s)
    | none =>
      let s1 : RedisState :=
        { s with
          agentCurrentTask := upd s.agentCurrentTask agent_id (some task_key)
          agentStatus := upd s.agentStatus agent_id (some "working")
          kv := upd s.kv task_key (some (task_data, ttl))
          agentTasks := upd s.agentTasks agent_id (task_key :: s.agentTasks agent_id) }
      ((true, "Task assigned"), s1)

/-- Python wrapper `AtomicOperations.assign_task_to_agent`: returns
`(False, "Redis not connected")` when the store handle is absent, otherwise
runs the script with `task_key = "task:" ++ task_id` (default `ttl` 3600). -/
def assign_task_to_agent (st : Option RedisState) (agent_id task_id task_data : String)
    (ttl : Nat) : (Bool × String) × Option RedisState :=
  match st with
  | none => ((false, "Redis not connected"), none)
  | some s =>
    let r := assignTaskScript s agent_id ("task:" ++ task_id) task_data ttl
    (r.1, some r.2)

/-! ### `document_edit` (atomic_operations.py lines 53-87) -/

/-- Result of the `document_edit` Lua script: the `{ok, reason, extra}` tuple,
where `extra` is the new version, the current version, or the lock owner. -/
inductive EditResult where
  | applied (newVersion : Int)
  | versionConflict (currentVersion : Int)
  | documentLocked (owner : String)
deriving DecidableEq, Repr

/-- First component of the script's return tuple. -/
def EditResult.ok : EditResult → Bool
  | .applied _ => true
  | .versionConflict _ => false
  | .documentLocked _ => false

/-- Second component of the script's return tuple. -/
def EditResult.reason : EditResult → String
  | .applied _ => "Edit applied"
  | .versionConflict _ => "Version conflict"
  | .documentLocked _ => "Document locked"

/-- The write section of the `document_edit` script (after both checks pass):
`new_version = version + 1`, the three `HSET`s, `LPUSH`+`LTRIM 0 99` on the
history, and `SETEX` of the lock. -/
def docEditWrite (s : RedisState) (doc_id user_id : String) (version : Int)
    (edit_data : String) (ttl : Nat) (updated_at : String) : EditResult × RedisState :=
  let new_version := version + 1
  let s1 : RedisState :=
    { s with
      docVersion := upd s.docVersion doc_id (some new_version)
      docLastEditor := upd s.docLastEditor doc_id (some user_id)
      docUpdatedAt := upd s.docUpdatedAt doc_id (some updated_at)
      docHistory := upd s.docHistory doc_id ((edit_data :: s.docHistory doc_id).take 100)
      lockDoc := upd s.lockDoc doc_id (some (user_id, ttl)) }
  (.applied new_version, s1)

/-- The lock check of the `document_edit` script (`GET lock:doc:<id>`;
reject only when a lock exists and its owner differs from the caller). -/
def docEditLockChecked (s : RedisState) (doc_id user_id : String) (version : Int)
    (edit_data : String) (ttl : Nat) (updated_at : String) : EditResult × RedisState :=
  match s.lockDoc doc_id with
  | some (lock_owner, _) =>
    if lock_owner ≠ user_id then (.documentLocked lock_owner, s)
    else docEditWrite s doc_id user_id version edit_data ttl updated_at
  | none => docEditWrite s doc_id user_id version edit_data ttl updated_at

/-- The `document_edit` Lua script.  Version check first (reject iff a stored
version exists and exceeds the caller's `version`), then the lock check, then
the writes. -/
def documentEditScript (s : RedisState) (doc_id user_id : String) (version : Int)
    (edit_data : String) (ttl : Nat) (updated_at : String) : EditResult × RedisState :=
  match s.docVersion doc_id with
  | some current_version =>
    if current_version > version then (.versionConflict current_version, s)
    else docEditLockChecked s doc_id user_id version edit_data ttl updated_at
  | none => docEditLockChecked s doc_id user_id version edit_data ttl updated_at

/-- The `(ok, reason, extra)` tuple the Python wrapper builds from the script
result; `extra` is an int (version) or a string (lock owner). -/
def editResultTuple : EditResult → Bool × String × Option (Int ⊕ String)
  | .applied v => (true, "Edit applied", some (Sum.inl v))
  | .versionConflict v => (false, "Version conflict", some (Sum.inl v))
  | .documentLocked o => (false, "Document locked", some (Sum.inr o))

/-- Python wrapper `AtomicOperations.apply_document_edit` (default `ttl` 300;
`updated_at` is `datetime.utcnow().isoformat()`, passed here explicitly). -/
def apply_document_edit (st : Option RedisState) (doc_id user_id : String)
    (version : Int) (edit_data : String) (ttl : Nat) (updated_at : String) :
    (Bool × String × Option (Int ⊕ String)) × Option RedisState :=
  match st with
  | none => ((false, "Redis not connected", none), none)
  | some s =>
    let r := documentEditScript s doc_id user_id version edit_data ttl updated_at
    (editResultTuple r.1, some r.2)

/-! ### `coordinate_agents` (atomic_operations.py lines 90-123) -/

/-- Result of the `coordinate_agents` Lua script. -/
inductive CoordResult where
  | established (task : String)
  | unavailableAgents (agents : List String)
deriving DecidableEq, Repr

/-- The availability test shared by `assign_task` and `coordinate_agents`:
Lua `status ~= 'active' and status ~= 'idle'` negated. -/
def agentAvailable (s : RedisState) (a : String) : Bool :=
  s.agentStatus a = some "active" || s.agentStatus a = some "idle"

/-- `SADD` on the member set. -/
def saddStr (l : List String) (a : String) : List String :=
  if a ∈ l then l else l ++ [a]

/-- Per-member write of the success loop of `coordinate_agents`. -/
def coordMemberWrite (task_id : String) (st : RedisState) (a : String) : RedisState :=
  { st with
    agentCoordGroup := upd st.agentCoordGroup a (some task_id)
    agentStatus := upd st.agentStatus a (some "coordinating")
    coordMembers := upd st.coordMembers task_id (saddStr (st.coordMembers task_id) a) }

/-- The `coordinate_agents` Lua script: collect the unavailable subset in list
order; fail without any write when it is non-empty, otherwise create the
coordination hash and update every member. -/
def coordinateAgentsScript (s : RedisState) (task_id coordinator_id : String)
    (agent_ids : List String) (task_data : String) : CoordResult × RedisState :=
  let unavailable := agent_ids.filter (fun a => !(agentAvailable s a))
  if unavailable.length > 0 then (.unavailableAgents unavailable, s)
  else
    let s1 : RedisState :=
      { s with
        coordCoordinator := upd s.coordCoordinator task_id (some coordinator_id)
        coordAgents := upd s.coordAgents task_id (some agent_ids)
        coordTask := upd s.coordTask task_id (some task_data)
        coordStatus := upd s.coordStatus task_id (some "active") }
    let s2 := agent_ids.foldl (coordMemberWrite task_id) s1
    (.established task_id, s2)

/-- The `(ok, reason, extra)` tuple built by the Python wrapper; on failure the
third slot carries `cjson.encode(unavailable)`, modelled by the list itself. -/
def coordResultTuple : CoordResult → Bool × String × Option (String ⊕ List String)
  | .established t => (true, "Coordination established", some (Sum.inl t))
  | .unavailableAgents l => (false, "Agents unavailable", some (Sum.inr l))

/-- Python wrapper `AtomicOperations.coordinate_agents`. -/
def coordinate_agents (st : Option RedisState) (task_id coordinator_id : String)
    (agent_ids : List String) (task_data : String) :
    (Bool × String × Option (String ⊕ List String)) × Option RedisState :=
  match st with
  | none => ((false, "Redis not connected", none), none)
  | some s =>
    let r := coordinateAgentsScript s task_id coordinator_id agent_ids task_data
    (coordResultTuple r.1, some r.2)

/-! ### `rate_limit` (atomic_operations.py lines 126-146) -/

/-- `ZREMRANGEBYSCORE key 0 maxScore`: remove every entry whose score lies in
the closed interval `[0, maxScore]`. -/
def zremrangebyscoreUpTo (l : List Int) (maxScore : Int) : List Int :=
  l.filter (fun t => !(0 ≤ t && t ≤ maxScore))

/-- Sorted insertion used to model `ZADD` (the sorted set iterates ascending
by score). -/
def insertIntSorted (t : Int) : List Int → List Int
  | [] => [t]
  | x :: xs => if t < x then t :: x :: xs else x :: insertIntSorted t xs

/-- `ZADD key t t`: the member is the timestamp itself, so adding an already
present timestamp only rewrites its (identical) score and the set is
unchanged. -/
def zaddTs (l : List Int) (t : Int) : List Int :=
  if t ∈ l then l else insertIntSorted t l

/-- The `rate_limit` Lua script: drop entries with score `≤ now - window`,
count, admit and record the timestamp when the count is below the limit,
otherwise return `(false, 0)` without adding anything. -/
def rateLimitScript (s : RedisState) (key : String) (limit window current_time : Int) :
    (Bool × Int) × RedisState :=
  let l0 := zremrangebyscoreUpTo (s.rate key) (current_time - window)
  let current : Int := l0.length
  if current < limit then
    let l1 := zaddTs l0 current_time
    ((true, limit - current - 1),
     { s with rate := upd s.rate key l1, rateTtl := upd s.rateTtl key (some window) })
  else
    ((false, 0), { s with rate := upd s.rate key l0 })

/-- Python wrapper `AtomicOperations.check_rate_limit_atomic`: when the store
handle is absent it returns `(True, limit)` — every request admitted, nothing
recorded.  `current_time` is `int(time())`, passed here explicitly. -/
def check_rate_limit_atomic (st : Option RedisState) (key : String)
    (limit window current_time : Int) : (Bool × Int) × Option RedisState :=
  match st with
  | none => ((true, limit), none)
  | some s =>
    let r := rateLimitScript s key limit window current_time
    (r.1, some r.2)

/-! ### `ordered_message` (atomic_operations.py lines 149-179) -/

/-- `ZADD` insertion by score into an ascending list. -/
def insertByScore (score : Int) (m : OrderedMsg) :
    List (Int × OrderedMsg) → List (Int × OrderedMsg)
  | [] => [(score, m)]
  | p :: ps => if score < p.1 then (score, m) :: p :: ps else p :: insertByScore score m ps

/-- `ZADD <channel>:messages score m`: a zset is keyed by member, so an
existing entry with the same member is replaced, otherwise the pair is
inserted at its score position. -/
def zaddMsg (l : List (Int × OrderedMsg)) (score : Int) (m : OrderedMsg) :
    List (Int × OrderedMsg) :=
  insertByScore score m (l.filter (fun p => p.2 ≠ m))

/-- The `ordered_message` Lua script: `HINCRBY` the per-channel sequence
(missing field counts as 0), store the encoded message at that score, publish
(no store effect), and when the log exceeds 1000 entries remove the
lowest-ranked `count - 1000` of them (`ZREMRANGEBYRANK 0 count-1001`). -/
def orderedMessageScript (s : RedisState) (channel message sender timestamp : String) :
    (Bool × Int) × RedisState :=
  let sequence := s.channelSeq channel + 1
  let ordered_msg : OrderedMsg :=
    { sequence := sequence, sender := sender, message := message, timestamp := timestamp }
  let l1 := zaddMsg (s.channelMessages channel) sequence ordered_msg
  let count := l1.length
  let l2 := if count > 1000 then l1.drop (count - 1000) else l1
  ((true, sequence),
   { s with
     channelSeq := upd s.channelSeq channel sequence
     channelMessages := upd s.channelMessages channel l2 })

/-- Python wrapper `AtomicOperations.send_ordered_message` (`timestamp` is
`datetime.utcnow().isoformat()`, passed explicitly). -/
def send_ordered_message (st : Option RedisState) (channel message sender timestamp : String) :
    (Bool × Option Int) × Option RedisState :=
  match st with
  | none => ((false, none), none)
  | some s =>
    let r := orderedMessageScript s channel message sender timestamp
    ((r.1.1, some r.1.2), some r.2)

/-! ### WebSocketManager (websocket_manager.py)

The in-process registry.  The transport (`websocket.send_json`) is modelled by
a per-connection delivery log; sends in the modelled scenarios succeed (a
transport failure triggers forced disconnect, a path none of the claims
exercises).  `asyncio` interleaving is irrelevant here: every manager method
mutates the maps without awaiting between reads and writes of the same map, so
a method call is one step. -/

/-- A message as handled by the manager (a JSON dict in Python).  Control
frames are the pause/resume notifications the manager itself builds (their
timestamp field is not modelled); payload frames are opaque. -/
inductive WsMsg where
  | control (action : String)
  | payload (data : String)
deriving DecidableEq, Repr

/-- One `WebSocketConnection` (the fields `disconnect` and the claims read). -/
structure WsConnection where
  sessionId : String
  connectionType : String
  userId : Option String
  agentId : Option String
deriving DecidableEq, Repr

/-- `_agent_states[agent_id]` dict. -/
structure AgentStateRec where
  status : String
  paused : Bool
  currentTask : Option String
deriving DecidableEq, Repr

/-- The mutable state of `WebSocketManager`, plus the transport delivery log
(`delivered cid` = the sequence of messages `send_json`-ed on connection
`cid`, oldest first). -/
structure ManagerState where
  connections : List (String × WsConnection)
  sessions : String → List String
  userConnections : String → List String
  agentConnections : String → Option String
  messageQueues : String → List WsMsg
  agentStates : String → Option AgentStateRec
  documentLocks : List (String × String)
  delivered : String → List WsMsg

/-- Manager with no connections. -/
def emptyManager : ManagerState where
  connections := []
  sessions := fun _ => []
  userConnections := fun _ => []
  agentConnections := fun _ => none
  messageQueues := fun _ => []
  agentStates := fun _ => none
  documentLocks := []
  delivered := fun _ => []

/-- `send_to_connection`: deliver when the connection exists (success path),
return `False` otherwise. -/
def sendToConnection (m : ManagerState) (cid : String) (msg : WsMsg) :
    Bool × ManagerState :=
  match m.connections.lookup cid with
  | none => (false, m)
  | some _ => (true, { m with delivered := upd m.delivered cid (m.delivered cid ++ [msg]) })

/-- `send_to_agent`: queue when the agent has no connection (returns `False`),
queue when the agent is paused (returns `True`), deliver otherwise. -/
def sendToAgent (m : ManagerState) (agent_id : String) (msg : WsMsg) :
    Bool × ManagerState :=
  match m.agentConnections agent_id with
  | none =>
    (false, { m with messageQueues := upd m.messageQueues agent_id (m.messageQueues agent_id ++ [msg]) })
  | some cid =>
    if (m.agentStates agent_id).elim false (fun st => st.paused) then
      (true, { m with messageQueues := upd m.messageQueues agent_id (m.messageQueues agent_id ++ [msg]) })
    else
      sendToConnection m cid msg

/-- `pause_agent`: set the paused flag, then send the control notification to
the agent itself (which, the flag now being set, lands in the queue). -/
def pauseAgent (m : ManagerState) (agent_id : String) : Bool × ManagerState :=
  match m.agentStates agent_id with
  | none => (false, m)
  | some st =>
    let m1 := { m with agentStates := upd m.agentStates agent_id (some { st with paused := true }) }
    let m2 := (sendToAgent m1 agent_id (.control "pause")).2
    (true, m2)

/-- The drain loop of `resume_agent` (`while not queue.empty(): ...`), with
fuel: each modelled iteration pops the queue head and re-sends it via
`send_to_agent`.  When the agent stays connected and unpaused every send
removes one element and adds none, so `fuel = queue length` runs the loop to
completion exactly as the Python loop does. -/
def drainQueue (agent_id : String) : Nat → ManagerState → ManagerState
  | 0, m => m
  | fuel + 1, m =>
    match m.messageQueues agent_id with
    | [] => m
    | msg :: rest =>
      let m1 := { m with messageQueues := upd m.messageQueues agent_id rest }
      let m2 := (sendToAgent m1 agent_id msg).2
      drainQueue agent_id fuel m2

/-- `resume_agent`: clear the paused flag, drain the queue in FIFO order, then
send the control notification directly. -/
def resumeAgent (m : ManagerState) (agent_id : String) : Bool × ManagerState :=
  match m.agentStates agent_id with
  | none => (false, m)
  | some st =>
    let m1 := { m with agentStates := upd m.agentStates agent_id (some { st with paused := false }) }
    let m2 := drainQueue agent_id (m1.messageQueues agent_id).length m1
    let m3 := (sendToAgent m2 agent_id (.control "resume")).2
    (true, m3)

/-- `broadcast_to_session`: deliver to every member of the session except the
excluded connection (per-connection failures tolerated; success path
modelled). -/
def broadcastToSession (m : ManagerState) (session_id : String) (msg : WsMsg)
    (exclude : Option String) : ManagerState :=
  (m.sessions session_id).foldl
    (fun st cid => if some cid = exclude then st else (sendToConnection st cid msg).2) m

/-- Remove one element from a list (`set.discard`). -/
def discardStr (l : List String) (a : String) : List String :=
  l.filter (fun x => x ≠ a)

/-- `disconnect`: no-op for an unknown connection; otherwise remove the
session / user / agent index entries, mark the agent state disconnected,
delete every in-process document lock whose holder equals the connection's
`user_id`, broadcast the `connection_left` notification, and drop the
connection. -/
def disconnect (m : ManagerState) (cid : String) : ManagerState :=
  match m.connections.lookup cid with
  | none => m
  | some conn =>
    let m1 := { m with sessions := upd m.sessions conn.sessionId (discardStr (m.sessions conn.sessionId) cid) }
    let m2 :=
      match conn.userId with
      | some u => { m1 with userConnections := upd m1.userConnections u (discardStr (m1.userConnections u) cid) }
      | none => m1
    let m3 :=
      match conn.agentId with
      | some a =>
        let m3a := { m2 with agentConnections := upd m2.agentConnections a none }
        match m3a.agentStates a with
        | some st => { m3a with agentStates := upd m3a.agentStates a (some { st with status := "disconnected" }) }
        | none => m3a
      | none => m2
    let m4 :=
      match conn.userId with
      | some u => { m3 with documentLocks := m3.documentLocks.filter (fun p => p.2 ≠ u) }
      | none => m3
    let m5 := broadcastToSession m4 conn.sessionId (.control "connection_left") (some cid)
    { m5 with connections := m5.connections.filter (fun p => p.1 ≠ cid) }

/-- `acquire_document_lock`: in-process lock map, first holder wins,
reentrant for the same user. -/
def acquireDocumentLock (m : ManagerState) (document_id user_id : String) :
    Bool × ManagerState :=
  match m.documentLocks.lookup document_id with
  | some owner => (owner = user_id, m)
  | none => (true, { m with documentLocks := m.documentLocks ++ [(document_id, user_id)] })

/-! ### Supervisor (orchestration/supervisor.py)

The langgraph workflow is a deterministic step machine over `ConversationState`
once the two external collaborators are fixed: the Reasoning collaborator
(`llm.ainvoke` + `_parse_decision`) is an oracle giving, per invocation,
either the response text or a raised exception; the Agent collaborator
(`registry.get_agent_instance` + `agent.execute`) maps an agent id to absence,
an exception, or its finite event stream.  The float `confidence` field of
`SupervisorDecision` is not modelled: no code path of the supervisor reads it
after parsing. -/

/-- `str.lower()` (used on decision lines and agent names). -/
def strLower (s : String) : String := ⟨s.toList.map Char.toLower⟩

/-- Python whitespace (`str.strip()` default set). -/
def isPySpace (c : Char) : Bool :=
  c = ' ' || c = '\t' || c = '\n' || c = '\r' || c = '\x0b' || c = '\x0c'

/-- Drop leading Python whitespace. -/
def dropLeadSpace : List Char → List Char
  | [] => []
  | c :: cs => if isPySpace c then dropLeadSpace cs else c :: cs

/-- Python `str.strip()`. -/
def strStrip (s : String) : String :=
  ⟨((dropLeadSpace ((dropLeadSpace s.toList).reverse)).reverse)⟩

/-- Split a character list at every occurrence of `sep`
(Python `str.split(sep)` for a one-character separator). -/
def splitAllChar (sep : Char) : List Char → List Char → List (List Char)
  | [], acc => [acc.reverse]
  | c :: cs, acc =>
    if c = sep then acc.reverse :: splitAllChar sep cs []
    else splitAllChar sep cs (c :: acc)

/-- Python `str.split(sep)` for a one-character separator. -/
def strSplitAll (sep : Char) (s : String) : List String :=
  (splitAllChar sep s.toList []).map (fun l => ⟨l⟩)

/-- Split at the first occurrence of `sep` only
(Python `str.split(sep, 1)`): `none` when `sep` does not occur. -/
def splitFirstChar (sep : Char) : List Char → Option (List Char × List Char)
  | [] => none
  | c :: cs =>
    if c = sep then some ([], cs)
    else (splitFirstChar sep cs).map (fun p => (c :: p.1, p.2))

/-- Leading-segment test on character lists. -/
def charsLead : List Char → List Char → Bool
  | [], _ => true
  | _ :: _, [] => false
  | a :: as, b :: bs => a = b && charsLead as bs

/-- Substring containment on character lists (Python `needle in hay`). -/
def charsHasSub (n : List Char) : List Char → Bool
  | [] => charsLead n []
  | b :: bs => charsLead n (b :: bs) || charsHasSub n bs

/-- Python `needle in hay` on strings. -/
def hasSub (needle hay : String) : Bool := charsHasSub needle.toList hay.toList

/-- Python `s.endswith(suf)`. -/
def strEndsWith (s suf : String) : Bool :=
  charsLead suf.toList.reverse s.toList.reverse

/-- `SupervisorAction` enum (supervisor.py lines 35-43). -/
inductive SupervisorAction where
  | route_to_agent
  | request_approval
  | gather_more_info
  | complete
  | interrupt
  | delegate
  | escalate
deriving DecidableEq, Repr

/-- A task dict on `task_queue` / `completed_tasks`; the fields the supervisor
reads or writes (`query`, `completed_by`, `result`). -/
structure TaskRec where
  query : Option String
  completedBy : Option String
  result : Option String
deriving DecidableEq, Repr

/-- `SupervisorDecision` (confidence omitted, see section comment). -/
structure SupervisorDecision where
  action : SupervisorAction
  agent : Option String
  reason : String
  task : Option TaskRec
  requiresApproval : Bool
deriving DecidableEq, Repr

/-- A conversation message (`HumanMessage` / `AIMessage` with optional `name`
attribution / `SystemMessage`). -/
inductive ChatMessage where
  | human (content : String)
  | ai (content : String) (name : Option String)
  | system (content : String)
deriving DecidableEq, Repr

/-- The `approval_pending` dict built by `_supervisor_node`. -/
structure ApprovalRec where
  agent : Option String
  task : Option TaskRec
  reason : String
deriving DecidableEq, Repr

/-- The `metadata` dict entries the supervisor reads or writes.  `iteration`
is `Option Nat` because the key may be absent (`metadata.get("iteration", 0)`);
`complete` models `metadata.get("complete", False)`; `infoNeeded` models
`metadata.get("info_needed", "context")`. -/
structure ConvMetadata where
  iteration : Option Nat
  complete : Bool
  action : Option SupervisorAction
  lastDecision : Option SupervisorDecision
  infoNeeded : Option String
deriving DecidableEq, Repr

/-- `ConversationState` (supervisor.py lines 46-56; the unexercised `context`
dict is omitted). -/
structure ConvState where
  messages : List ChatMessage
  currentAgent : Option String
  taskQueue : List TaskRec
  completedTasks : List TaskRec
  approvalPending : Option ApprovalRec
  interruptReason : Option String
  finalOutput : Option String
  metadata : ConvMetadata
deriving DecidableEq, Repr

/-- The defaults `_parse_decision` starts from. -/
def defaultDecision : SupervisorDecision :=
  { action := .complete, agent := none, reason := "No reason provided",
    task := none, requiresApproval := false }

/-- One line of the `_parse_decision` loop (the `confidence:` branch only sets
the unmodelled float and is omitted).  `line.split(":")[1]` is the segment
between the first two colons; `line.split(":", 1)[1]` is everything after the
first colon. -/
def parseDecisionLine (d : SupervisorDecision) (line : String) : SupervisorDecision :=
  let ll := strLower line
  if hasSub "action:" ll then
    if hasSub "route" ll || hasSub "agent" ll then { d with action := .route_to_agent }
    else if hasSub "approval" ll then { d with action := .request_approval }
    else if hasSub "info" ll || hasSub "gather" ll then { d with action := .gather_more_info }
    else if hasSub "complete" ll || hasSub "done" ll then { d with action := .complete }
    else d
  else if hasSub "agent:" ll then
    match strSplitAll ':' line with
    | _ :: p :: _ => { d with agent := some (strLower (strStrip p)) }
    | _ => d
  else if hasSub "reason:" ll then
    match splitFirstChar ':' line.toList with
    | some (_, rest) => { d with reason := strStrip ⟨rest⟩ }
    | none => d
  else d

/-- `_parse_decision`: fold the line handler over `response.strip().split('\n')`. -/
def parseDecision (response : String) : SupervisorDecision :=
  ((splitAllChar '\n' (strStrip response).toList []).map (fun l => (⟨l⟩ : String))).foldl
    parseDecisionLine defaultDecision

/-- `_make_decision`: invoke the Reasoning collaborator and parse; an
exception is caught and becomes `complete` with the error as the reason. -/
def makeDecision (llmResult : Except String String) : SupervisorDecision :=
  match llmResult with
  | .ok text => parseDecision text
  | .error e =>
    { action := .complete, agent := none, reason := "Error making decision: " ++ e,
      task := none, requiresApproval := false }

/-- `_should_complete` (supervisor.py lines 500-523). -/
def shouldComplete (max_iterations : Nat) (st : ConvState) : Bool :=
  let iteration := st.metadata.iteration.getD 0
  if iteration ≥ max_iterations then true
  else if st.taskQueue.isEmpty && !st.completedTasks.isEmpty then true
  else st.metadata.complete

/-- `_supervisor_node` (supervisor.py lines 145-195). -/
def supervisorNode (llmResult : Except String String) (max_iterations : Nat)
    (st : ConvState) : ConvState :=
  if st.approvalPending.isSome then st
  else if shouldComplete max_iterations st then
    { st with metadata := { st.metadata with action := some .complete } }
  else
    let decision := makeDecision llmResult
    let st1 := { st with metadata :=
      { st.metadata with lastDecision := some decision, action := some decision.action } }
    let st2 := match decision.agent with
      | some a => { st1 with currentAgent := some a }
      | none => st1
    let st3 := match decision.task with
      | some t => { st2 with taskQueue := st2.taskQueue ++ [t] }
      | none => st2
    if decision.requiresApproval then
      let approval : ApprovalRec :=
        { agent := decision.agent, task := decision.task, reason := decision.reason }
      { st3 with approvalPending := some approval }
    else st3

/-- `_supervisor_router`: `metadata.get("action", COMPLETE)`. -/
def supervisorRouter (st : ConvState) : SupervisorAction :=
  st.metadata.action.getD SupervisorAction.complete

/-- `_gather_info_node`. -/
def gatherInfoNode (st : ConvState) : ConvState :=
  let info_needed := st.metadata.infoNeeded.getD "context"
  { st with messages := st.messages ++ [ChatMessage.ai ("I need more information about: " ++ info_needed) none] }

/-- `_approval_node`: auto-approve clears the pending approval, otherwise the
approval stays pending and the action becomes `INTERRUPT`. -/
def approvalNode (auto_approve : Bool) (st : ConvState) : ConvState :=
  match st.approvalPending with
  | none => st
  | some approval =>
    if auto_approve then
      { st with approvalPending := none,
                messages := st.messages ++ [ChatMessage.system ("Approved: " ++ approval.reason)] }
    else
      { st with interruptReason := some ("Approval required: " ++ approval.reason),
                metadata := { st.metadata with action := some .interrupt } }

/-- One summary line of `_finalize_node`. -/
def taskSummaryLine (t : TaskRec) : String :=
  "- " ++ t.query.getD "Task" ++ ": " ++ t.completedBy.getD "Unknown" ++ "\n"

/-- `_finalize_node`. -/
def finalizeNode (st : ConvState) : ConvState :=
  let out :=
    if st.completedTasks.isEmpty then "Workflow completed"
    else "Completed tasks:\n" ++ String.join (st.completedTasks.map taskSummaryLine)
  { st with finalOutput := some out, messages := st.messages ++ [ChatMessage.ai out none] }

/-- One event of the Agent collaborator's stream; `result` collapses
`event.data.get("result") or event.data.get("report") or
event.data.get("content")` to the first truthy of the three. -/
structure AgentEvent where
  type : String
  result : Option String
deriving DecidableEq, Repr

/-- `event.type == "complete" or event.type.endswith("_complete")`. -/
def isCompletionEvent (e : AgentEvent) : Bool :=
  e.type = "complete" || strEndsWith e.type "_complete"

/-- The per-event body of the `_route_to_agent_node` loop: on a completion
event carrying a result, append the attributed message and pop the last queued
task as completed. -/
def processAgentEvent (agent_id : String) (st : ConvState) (e : AgentEvent) : ConvState :=
  if isCompletionEvent e then
    match e.result with
    | some result =>
      let st1 := { st with messages := st.messages ++ [ChatMessage.ai result (some agent_id)] }
      match st1.taskQueue.getLast? with
      | some t =>
        { st1 with taskQueue := st1.taskQueue.dropLast,
                   completedTasks := st1.completedTasks ++
                     [{ t with completedBy := some agent_id, result := some result }] }
      | none => st1
    | none => st
  else st

/-- `_route_to_agent_node` with the Agent collaborator abstracted: `none`
means `get_agent_instance` found nothing, `Except.error` an exception raised
by `execute` (modelled as raised before any event; the per-agent events dump
into `metadata` is not modelled). -/
def routeToAgentNode (registry : String → Option (Except String (List AgentEvent)))
    (st : ConvState) : ConvState :=
  match st.currentAgent with
  | none => st
  | some agent_id =>
    match registry agent_id with
    | none =>
      { st with messages := st.messages ++ [ChatMessage.ai ("Error: Agent " ++ agent_id ++ " not available") none] }
    | some (.error e) =>
      { st with messages := st.messages ++ [ChatMessage.ai ("Agent " ++ agent_id ++ " encountered an error: " ++ e) none] }
    | some (.ok events) => events.foldl (processAgentEvent agent_id) st

/-- The langgraph nodes, plus `END`. -/
inductive GraphNode where
  | supervisorN
  | routeAgentN
  | approvalN
  | gatherInfoN
  | finalizeN
  | endN
deriving DecidableEq, Repr

/-- The conditional-edge dict of `_build_graph`: the five mapped actions;
`delegate`/`escalate` are absent from the dict (no modelled node produces
them) and are sent to `END`. -/
def actionTarget : SupervisorAction → GraphNode
  | .route_to_agent => .routeAgentN
  | .request_approval => .approvalN
  | .gather_more_info => .gatherInfoN
  | .complete => .finalizeN
  | .interrupt => .endN
  | .delegate => .endN
  | .escalate => .endN

/-- Machine state: current node, conversation state, and the number of
Reasoning-collaborator invocations made so far (indexing the oracle). -/
structure MachineState where
  node : GraphNode
  conv : ConvState
  calls : Nat
deriving DecidableEq, Repr

/-- Whether a supervisor pass reaches the `_make_decision` call. -/
def supervisorConsults (max_iterations : Nat) (st : ConvState) : Bool :=
  !st.approvalPending.isSome && !shouldComplete max_iterations st

/-- One langgraph step: run the current node and follow its (conditional)
edge. -/
def stepMachine (oracle : Nat → Except String String)
    (registry : String → Option (Except String (List AgentEvent)))
    (auto_approve : Bool) (max_iterations : Nat) (ms : MachineState) : MachineState :=
  match ms.node with
  | .supervisorN =>
    let st' := supervisorNode (oracle ms.calls) max_iterations ms.conv
    let calls' := if supervisorConsults max_iterations ms.conv then ms.calls + 1 else ms.calls
    { node := actionTarget (supervisorRouter st'), conv := st', calls := calls' }
  | .routeAgentN => { ms with node := .supervisorN, conv := routeToAgentNode registry ms.conv }
  | .approvalN => { ms with node := .supervisorN, conv := approvalNode auto_approve ms.conv }
  | .gatherInfoN => { ms with node := .supervisorN, conv := gatherInfoNode ms.conv }
  | .finalizeN => { ms with node := .endN, conv := finalizeNode ms.conv }
  | .endN => ms

/-- Iterate the machine `n` steps. -/
def runMachine (oracle : Nat → Except String String)
    (registry : String → Option (Except String (List AgentEvent)))
    (auto_approve : Bool) (max_iterations : Nat) : Nat → MachineState → MachineState
  | 0, ms => ms
  | n + 1, ms => runMachine oracle registry auto_approve max_iterations n
      (stepMachine oracle registry auto_approve max_iterations ms)

/-- A metadata dict with none of the supervisor keys present
(`run` starts from `config or {}`). -/
def emptyMetadata : ConvMetadata :=
  { iteration := none, complete := false, action := none, lastDecision := none,
    infoNeeded := none }

/-- The initial `ConversationState` built by `Supervisor.run`. -/
def initialConvState (messages : List ChatMessage) (md : ConvMetadata) : ConvState :=
  { messages := messages, currentAgent := none, taskQueue := [], completedTasks := [],
    approvalPending := none, interruptReason := none, finalOutput := none, metadata := md }

/-! ## Claims -/

/-! ### C10 — fail-open rate limiter when the store is down -/

/-- Claim C10: with no store connection, `check_rate_limit_atomic` returns
`(True, limit)` — every request admitted with the full budget reported and
nothing recorded — while the other four coordinator operations return a
failure result (`False, "Redis not connected"`, or `(False, None)` for
`send_ordered_message`). -/
theorem C10_rate_limit_fails_open :
    (∀ key limit window now,
      check_rate_limit_atomic none key limit window now = ((true, limit), none)) ∧
    (∀ aid tid td ttl,
      assign_task_to_agent none aid tid td ttl = ((false, "Redis not connected"), none)) ∧
    (∀ d u v e ttl ts,
      apply_document_edit none d u v e ttl ts = ((false, "Redis not connected", none), none)) ∧
    (∀ t c ag td,
      coordinate_agents none t c ag td = ((false, "Redis not connected", none), none)) ∧
    (∀ ch m snd ts,
      send_ordered_message none ch m snd ts = ((false, none), none)) :=
  ⟨fun _ _ _ _ => rfl, fun _ _ _ _ => rfl, fun _ _ _ _ _ _ => rfl,
   fun _ _ _ _ => rfl, fun _ _ _ _ => rfl⟩

/-! ### C4 — sliding-window rate limiter (code bug) -/

/-- First `rate_limit` call at `t = 100`, fresh key, limit 2, window 10. -/
def c4_call1 : (Bool × Int) × RedisState := rateLimitScript freshRedis "rate:u:act" 2 10 100

/-- Second call, same second. -/
def c4_call2 : (Bool × Int) × RedisState := rateLimitScript c4_call1.2 "rate:u:act" 2 10 100

/-- Third call, same second. -/
def c4_call3 : (Bool × Int) × RedisState := rateLimitScript c4_call2.2 "rate:u:act" 2 10 100

/-- Claim C4 (code bug): with limit 2 and window 10, three calls in the same
second (`current_time = 100`) are all admitted, because `ZADD key now now`
keys the sorted set by the timestamp itself: the second admission collapses
into the first entry and `ZCARD` stays 1.  All three admitted timestamps lie
in the trailing interval `(90, 100]`, so the window holds 3 > 2 admitted
calls, and the "timestamped multiset" is in fact a set (one entry after three
admissions). -/
theorem C4_rate_limit_overadmits :
    c4_call1.1 = (true, 1) ∧ c4_call2.1 = (true, 0) ∧ c4_call3.1 = (true, 0) ∧
    c4_call3.2.rate "rate:u:act" = [100] := by
  refine ⟨rfl, rfl, rfl, rfl⟩

/-! ### C1 — assign_task (corrected) -/

/-- An agent mid-assignment: exactly the state a successful `assign_task`
leaves behind (`status = working`, `current_task` set). -/
def c1_busyState : RedisState :=
  { freshRedis with
    agentStatus := upd freshRedis.agentStatus "a1" (some "working")
    agentCurrentTask := upd freshRedis.agentCurrentTask "a1" (some "task:t0") }

/-- An initially idle agent. -/
def c1_idleState : RedisState :=
  { freshRedis with agentStatus := upd freshRedis.agentStatus "a2" (some "idle") }

/-- Claim C1 counterexample: an agent that already has a `current_task` (because
a successful assignment set its status to `working`) is rejected with
"Agent not available", not "Agent busy" — the availability check runs first.
Consequently two serialized calls on an initially idle agent give one success
and one "Agent not available", so N calls do not give N−1 "agent busy"
results. -/
theorem C1_counterexample :
    (assignTaskScript c1_busyState "a1" "task:t1" "p" 3600).1 = (false, "Agent not available") ∧
    (assignTaskScript c1_busyState "a1" "task:t1" "p" 3600).1.2 ≠ "Agent busy" ∧
    (assignTaskScript c1_idleState "a2" "task:t1" "p" 3600).1 = (true, "Task assigned") ∧
    (assignTaskScript (assignTaskScript c1_idleState "a2" "task:t1" "p" 3600).2
        "a2" "task:t2" "p" 3600).1 = (false, "Agent not available") := by
  refine ⟨rfl, by decide, rfl, rfl⟩

/-- `n` serialized `assign_task` calls against the same agent. -/
def assignRepeat (aid tk td : String) (ttl : Nat) : Nat → RedisState → List (Bool × String) × RedisState
  | 0, s => ([], s)
  | n + 1, s =>
    let r := assignTaskScript s aid tk td ttl
    let rest := assignRepeat aid tk td ttl n r.2
    (r.1 :: rest.1, rest.2)

/-- A `working` agent fails the availability check before the busy check, with
no state change. -/
theorem assignTask_working_notAvailable (s : RedisState) (aid tk td : String) (ttl : Nat)
    (h : s.agentStatus aid = some "working") :
    assignTaskScript s aid tk td ttl = ((false, "Agent not available"), s) := by
  unfold assignTaskScript
  rw [h]
  simp

/-- Repeated calls after the agent is `working` all fail with
"Agent not available" and leave the state alone. -/
theorem assignRepeat_working (aid tk td : String) (ttl : Nat) (n : Nat) (s : RedisState)
    (h : s.agentStatus aid = some "working") :
    assignRepeat aid tk td ttl n s = (List.replicate n (false, "Agent not available"), s) := by
  induction n with
  | zero => rfl
  | succ n ih =>
    unfold assignRepeat
    rw [assignTask_working_notAvailable s aid tk td ttl h]
    simp [ih, List.replicate_succ]

/-- A successful assignment: result, new status, new current task. -/
theorem assignTask_success (s : RedisState) (aid tk td : String) (ttl : Nat)
    (hst : s.agentStatus aid = some "active" ∨ s.agentStatus aid = some "idle")
    (htask : s.agentCurrentTask aid = none) :
    (assignTaskScript s aid tk td ttl).1 = (true, "Task assigned") ∧
    (assignTaskScript s aid tk td ttl).2.agentStatus aid = some "working" ∧
    (assignTaskScript s aid tk td ttl).2.agentCurrentTask aid = some tk := by
  unfold assignTaskScript
  rcases hst with h | h <;> rw [h] <;> simp <;> rw [htask] <;> simp [upd]

/-- Claim C1, amended: for an agent with status `active`/`idle` and no
`current_task`, `assign_task` succeeds and sets `status = working` and
`current_task`; for an agent with status `active`/`idle` that has a
`current_task` it fails with "Agent busy" and no mutation; for any other
status (including `working`, which a successful assignment sets) it fails
with "Agent not available" and no mutation; consequently `n + 1` serialized
calls on an initially idle agent yield exactly one success followed by `n`
"Agent not available" failures (not "Agent busy"). -/
theorem C1_assign_task_amended :
    (∀ (s : RedisState) aid tk td ttl,
      (s.agentStatus aid = some "active" ∨ s.agentStatus aid = some "idle") →
      s.agentCurrentTask aid = none →
      (assignTaskScript s aid tk td ttl).1 = (true, "Task assigned") ∧
      (assignTaskScript s aid tk td ttl).2.agentStatus aid = some "working" ∧
      (assignTaskScript s aid tk td ttl).2.agentCurrentTask aid = some tk) ∧
    (∀ (s : RedisState) aid tk td ttl t0,
      (s.agentStatus aid = some "active" ∨ s.agentStatus aid = some "idle") →
      s.agentCurrentTask aid = some t0 →
      assignTaskScript s aid tk td ttl = ((false, "Agent busy"), s)) ∧
    (∀ (s : RedisState) aid tk td ttl,
      s.agentStatus aid ≠ some "active" → s.agentStatus aid ≠ some "idle" →
      assignTaskScript s aid tk td ttl = ((false, "Agent not available"), s)) ∧
    (∀ (s : RedisState) aid tk td ttl n,
      s.agentStatus aid = some "idle" → s.agentCurrentTask aid = none →
      (assignRepeat aid tk td ttl (n + 1) s).1 =
        (true, "Task assigned") :: List.replicate n (false, "Agent not available")) := by
  refine ⟨?_, ?_, ?_, ?_⟩
  · exact assignTask_success
  · intro s aid tk td ttl t0 hst htask
    unfold assignTaskScript
    rcases hst with h | h <;> rw [h] <;> simp <;> rw [htask]
  · intro s aid tk td ttl h1 h2
    unfold assignTaskScript
    rw [if_pos ⟨h1, h2⟩]
  · intro s aid tk td ttl n hst htask
    obtain ⟨h1, h2, -⟩ := assignTask_success s aid tk td ttl (Or.inr hst) htask
    simp only [assignRepeat]
    rw [assignRepeat_working aid tk td ttl n _ h2]
    simp [h1]

/-- Witness for `C1_assign_task_amended` at concrete inputs. -/
theorem C1_assign_task_amended_witness :
    (assignTaskScript c1_idleState "a2" "task:t1" "p" 3600).1 = (true, "Task assigned") ∧
    (assignTaskScript c1_idleState "a2" "task:t1" "p" 3600).2.agentStatus "a2" = some "working" ∧
    (assignTaskScript c1_idleState "a2" "task:t1" "p" 3600).2.agentCurrentTask "a2" = some "task:t1" ∧
    assignTaskScript c1_busyState "a1" "task:t1" "p" 3600 = ((false, "Agent not available"), c1_busyState) ∧
    (assignRepeat "a2" "task:t1" "p" 3600 3 c1_idleState).1 =
      (true, "Task assigned") :: List.replicate 2 (false, "Agent not available") := by
  obtain ⟨w1, w2, w3⟩ :=
    C1_assign_task_amended.1 c1_idleState "a2" "task:t1" "p" 3600 (Or.inr (by decide)) (by decide)
  refine ⟨w1, w2, w3, ?_, ?_⟩
  · exact C1_assign_task_amended.2.2.1 c1_busyState "a1" "task:t1" "p" 3600 (by decide) (by decide)
  · exact C1_assign_task_amended.2.2.2 c1_idleState "a2" "task:t1" "p" 3600 2 (by decide) (by decide)

/-! ### C2 — apply_document_edit (corrected) -/

/-- A document already at stored version 3. -/
def c2_state : RedisState :=
  { freshRedis with docVersion := upd freshRedis.docVersion "d" (some 3) }

/-- Claim C2 counterexample: with stored version 3, an edit presented with
`expected_version = 10` is accepted and the stored version becomes 11
(`expected + 1`), an advance of 8, not the claimed exactly 1. -/
theorem C2_counterexample :
    (documentEditScript c2_state "d" "u1" 10 "edit" 300 "t0").1 = EditResult.applied 11 ∧
    (documentEditScript c2_state "d" "u1" 10 "edit" 300 "t0").2.docVersion "d" = some 11 ∧
    c2_state.docVersion "d" = some 3 ∧ (3 : Int) + 1 ≠ 11 := by
  refine ⟨rfl, rfl, rfl, by decide⟩

/-- Exhaustive case split of the `document_edit` script: version conflict,
lock conflict, or the write path. -/
theorem documentEditScript_cases (s : RedisState) (d u : String) (v : Int)
    (e : String) (ttl : Nat) (ts : String) :
    (∃ cv, s.docVersion d = some cv ∧ cv > v ∧
      documentEditScript s d u v e ttl ts = (.versionConflict cv, s)) ∨
    (∃ ow lt, s.lockDoc d = some (ow, lt) ∧ ow ≠ u ∧
      (∀ cv, s.docVersion d = some cv → cv ≤ v) ∧
      documentEditScript s d u v e ttl ts = (.documentLocked ow, s)) ∨
    ((∀ cv, s.docVersion d = some cv → cv ≤ v) ∧
      (∀ ow lt, s.lockDoc d = some (ow, lt) → ow = u) ∧
      documentEditScript s d u v e ttl ts = docEditWrite s d u v e ttl ts) := by
  cases hv : s.docVersion d with
  | some cv =>
    by_cases hgt : cv > v
    · exact Or.inl ⟨cv, rfl, hgt, by simp [documentEditScript, hv, hgt]⟩
    · have hle : ∀ cv' : Int, (some cv : Option Int) = some cv' → cv' ≤ v := by
        intro cv' h; cases h; omega
      cases hl : s.lockDoc d with
      | some p =>
        obtain ⟨ow, lt⟩ := p
        by_cases how : ow = u
        · refine Or.inr (Or.inr ⟨hle, ?_, ?_⟩)
          · intro ow' lt' h; cases h; exact how
          · simp [documentEditScript, docEditLockChecked, hv, hgt, hl, how]
        · refine Or.inr (Or.inl ⟨ow, lt, rfl, how, hle, ?_⟩)
          simp [documentEditScript, docEditLockChecked, hv, hgt, hl, how]
      | none =>
        refine Or.inr (Or.inr ⟨hle, ?_, ?_⟩)
        · intro ow' lt' h; cases h
        · simp [documentEditScript, docEditLockChecked, hv, hgt, hl]
  | none =>
    have hle : ∀ cv' : Int, (none : Option Int) = some cv' → cv' ≤ v := by
      intro cv' h; cases h
    cases hl : s.lockDoc d with
    | some p =>
      obtain ⟨ow, lt⟩ := p
      by_cases how : ow = u
      · refine Or.inr (Or.inr ⟨hle, ?_, ?_⟩)
        · intro ow' lt' h; cases h; exact how
        · simp [documentEditScript, docEditLockChecked, hv, hl, how]
      · refine Or.inr (Or.inl ⟨ow, lt, rfl, how, hle, ?_⟩)
        simp [documentEditScript, docEditLockChecked, hv, hl, how]
    | none =>
      refine Or.inr (Or.inr ⟨hle, ?_, ?_⟩)
      · intro ow' lt' h; cases h
      · simp [documentEditScript, docEditLockChecked, hv, hl]

/-- The write path's effect on the stored fields. -/
theorem docEditWrite_fields (s : RedisState) (d u : String) (v : Int)
    (e : String) (ttl : Nat) (ts : String) :
    (docEditWrite s d u v e ttl ts).1 = .applied (v + 1) ∧
    (docEditWrite s d u v e ttl ts).2.docVersion d = some (v + 1) ∧
    (docEditWrite s d u v e ttl ts).2.docLastEditor d = some u ∧
    (docEditWrite s d u v e ttl ts).2.lockDoc d = some (u, ttl) := by
  refine ⟨rfl, ?_, ?_, ?_⟩ <;> simp [docEditWrite, upd]

/-- Version of any document after the write path. -/
theorem docEditWrite_version_other (s : RedisState) (d u : String) (v : Int)
    (e : String) (ttl : Nat) (ts : String) (q : String) :
    (docEditWrite s d u v e ttl ts).2.docVersion q =
      if q = d then some (v + 1) else s.docVersion q := by
  simp [docEditWrite, upd]

/-- One `document_edit` call never lowers any document's stored version. -/
theorem documentEditScript_version_mono (s : RedisState) (d u : String) (v : Int)
    (e : String) (ttl : Nat) (ts : String) (q : String) (cv : Int)
    (h : s.docVersion q = some cv) :
    ∃ cv', (documentEditScript s d u v e ttl ts).2.docVersion q = some cv' ∧ cv ≤ cv' := by
  rcases documentEditScript_cases s d u v e ttl ts with
    ⟨cv0, _, _, heq⟩ | ⟨ow, lt, _, _, _, heq⟩ | ⟨hle, _, heq⟩
  · exact ⟨cv, by rw [heq]; exact h, le_refl cv⟩
  · exact ⟨cv, by rw [heq]; exact h, le_refl cv⟩
  · rw [heq, docEditWrite_version_other]
    by_cases hq : q = d
    · subst hq
      exact ⟨v + 1, by rw [if_pos rfl], by have := hle cv h; omega⟩
    · exact ⟨cv, by rw [if_neg hq]; exact h, le_refl cv⟩

/-- One call of a serialized edit sequence. -/
structure EditCall where
  doc : String
  user : String
  version : Int
  data : String
  ttl : Nat
  ts : String

/-- Serialized sequence of `document_edit` calls. -/
def applyEditCalls : List EditCall → RedisState → RedisState
  | [], s => s
  | c :: cs, s =>
    applyEditCalls cs (documentEditScript s c.doc c.user c.version c.data c.ttl c.ts).2

/-- Stored versions never decrease across any serialized call sequence. -/
theorem applyEditCalls_version_mono (calls : List EditCall) (s : RedisState)
    (q : String) (cv : Int) (h : s.docVersion q = some cv) :
    ∃ cv', (applyEditCalls calls s).docVersion q = some cv' ∧ cv ≤ cv' := by
  induction calls generalizing s cv with
  | nil => exact ⟨cv, h, le_refl cv⟩
  | cons c cs ih =>
    obtain ⟨cv1, h1, hle1⟩ :=
      documentEditScript_version_mono s c.doc c.user c.version c.data c.ttl c.ts q cv h
    obtain ⟨cv2, h2, hle2⟩ := ih _ cv1 h1
    exact ⟨cv2, h2, le_trans hle1 hle2⟩

/-- Claim C2, amended: an edit is accepted iff `expected_version ≥` the stored
version (or no version is stored) and no other user holds the lock; on
acceptance the stored version becomes `expected_version + 1` — an advance of
exactly 1 only when the caller's `expected_version` equals the stored
version, and a jump forward when it exceeds it — `last_editor` becomes the
caller and the TTL'd lock is (re)acquired for the caller; the stored version
never decreases across any serialized sequence of calls; on rejection the
script returns "Version conflict" with the current version or
"Document locked" with the owner, and mutates nothing. -/
theorem C2_document_edit_amended :
    (∀ (s : RedisState) d u v e ttl ts,
      ((documentEditScript s d u v e ttl ts).1.ok = true ↔
        (∀ cv, s.docVersion d = some cv → cv ≤ v) ∧
        (∀ ow lt, s.lockDoc d = some (ow, lt) → ow = u))) ∧
    (∀ (s : RedisState) d u v e ttl ts,
      (documentEditScript s d u v e ttl ts).1.ok = true →
      (documentEditScript s d u v e ttl ts).1 = .applied (v + 1) ∧
      (documentEditScript s d u v e ttl ts).2.docVersion d = some (v + 1) ∧
      (documentEditScript s d u v e ttl ts).2.docLastEditor d = some u ∧
      (documentEditScript s d u v e ttl ts).2.lockDoc d = some (u, ttl)) ∧
    (∀ (s : RedisState) d u v e ttl ts cv,
      s.docVersion d = some cv → cv > v →
      documentEditScript s d u v e ttl ts = (.versionConflict cv, s)) ∧
    (∀ (s : RedisState) d u v e ttl ts ow lt,
      s.lockDoc d = some (ow, lt) → ow ≠ u →
      (∀ cv, s.docVersion d = some cv → cv ≤ v) →
      documentEditScript s d u v e ttl ts = (.documentLocked ow, s)) ∧
    (∀ calls (s : RedisState) q cv,
      s.docVersion q = some cv →
      ∃ cv', (applyEditCalls calls s).docVersion q = some cv' ∧ cv ≤ cv') := by
  refine ⟨?_, ?_, ?_, ?_, applyEditCalls_version_mono⟩
  · intro s d u v e ttl ts
    rcases documentEditScript_cases s d u v e ttl ts with
      ⟨cv0, hv, hgt, heq⟩ | ⟨ow, lt, hl, how, hle, heq⟩ | ⟨hle, hlk, heq⟩
    · rw [heq]
      constructor
      · intro hok; cases hok
      · rintro ⟨h1, -⟩; have := h1 cv0 hv; omega
    · rw [heq]
      constructor
      · intro hok; cases hok
      · rintro ⟨-, h2⟩; exact absurd (h2 ow lt hl) how
    · rw [heq]
      constructor
      · intro _; exact ⟨hle, hlk⟩
      · intro _; exact (docEditWrite_fields s d u v e ttl ts).1 ▸ rfl
  · intro s d u v e ttl ts hok
    rcases documentEditScript_cases s d u v e ttl ts with
      ⟨cv0, hv, hgt, heq⟩ | ⟨ow, lt, hl, how, hle, heq⟩ | ⟨hle, hlk, heq⟩
    · rw [heq] at hok; cases hok
    · rw [heq] at hok; cases hok
    · rw [heq]
      obtain ⟨w1, w2, w3, w4⟩ := docEditWrite_fields s d u v e ttl ts
      exact ⟨w1, w2, w3, w4⟩
  · intro s d u v e ttl ts cv hv hgt
    simp [documentEditScript, hv, hgt]
  · intro s d u v e ttl ts ow lt hl how hle
    cases hv : s.docVersion d with
    | some cv =>
      have hgt : ¬ cv > v := by have := hle cv hv; omega
      simp [documentEditScript, docEditLockChecked, hv, hgt, hl, how]
    | none => simp [documentEditScript, docEditLockChecked, hv, hl, how]

/-- Witness for `C2_document_edit_amended` at concrete inputs. -/
theorem C2_document_edit_amended_witness :
    ((documentEditScript c2_state "d" "u1" 10 "edit" 300 "t0").1.ok = true ↔
      (∀ cv, c2_state.docVersion "d" = some cv → cv ≤ 10) ∧
      (∀ ow lt, c2_state.lockDoc "d" = some (ow, lt) → ow = "u1")) ∧
    documentEditScript c2_state "d" "u1" 1 "edit" 300 "t0" = (.versionConflict 3, c2_state) := by
  refine ⟨C2_document_edit_amended.1 c2_state "d" "u1" 10 "edit" 300 "t0", ?_⟩
  exact C2_document_edit_amended.2.2.1 c2_state "d" "u1" 1 "edit" 300 "t0" 3 (by decide) (by decide)

/-! ### C3 — coordinate_agents (confirmed) -/

/-- The member-write fold sets status exactly for the folded members. -/
theorem coordFold_agentStatus (tid : String) (l : List String) (st : RedisState) (a : String) :
    (l.foldl (coordMemberWrite tid) st).agentStatus a =
      if a ∈ l then some "coordinating" else st.agentStatus a := by
  induction l generalizing st with
  | nil => simp
  | cons b bs ih =>
    rw [List.foldl_cons, ih]
    by_cases hab : a ∈ bs
    · simp [hab]
    · by_cases h2 : a = b
      · subst h2
        simp [hab, coordMemberWrite]
      · simp [hab, h2, coordMemberWrite, upd_other _ _ _ _ h2]

/-- The member-write fold sets the coordination group exactly for the folded
members. -/
theorem coordFold_agentCoordGroup (tid : String) (l : List String) (st : RedisState) (a : String) :
    (l.foldl (coordMemberWrite tid) st).agentCoordGroup a =
      if a ∈ l then some tid else st.agentCoordGroup a := by
  induction l generalizing st with
  | nil => simp
  | cons b bs ih =>
    rw [List.foldl_cons, ih]
    by_cases hab : a ∈ bs
    · simp [hab]
    · by_cases h2 : a = b
      · subst h2
        simp [hab, coordMemberWrite]
      · simp [hab, h2, coordMemberWrite, upd_other _ _ _ _ h2]

/-- The member-write fold never touches the coordination hash fields. -/
theorem coordFold_coordHash (tid : String) (l : List String) (st : RedisState) :
    (l.foldl (coordMemberWrite tid) st).coordCoordinator = st.coordCoordinator ∧
    (l.foldl (coordMemberWrite tid) st).coordStatus = st.coordStatus ∧
    (l.foldl (coordMemberWrite tid) st).coordAgents = st.coordAgents ∧
    (l.foldl (coordMemberWrite tid) st).coordTask = st.coordTask ∧
    (l.foldl (coordMemberWrite tid) st).agentCurrentTask = st.agentCurrentTask := by
  induction l generalizing st with
  | nil => exact ⟨rfl, rfl, rfl, rfl, rfl⟩
  | cons b bs ih =>
    rw [List.foldl_cons]
    exact ih _

/-- Claim C3: if at least one listed agent is unavailable, `coordinate_agents`
returns the unavailable subset and the whole store is untouched (no partial
mutation); if every listed agent is available, the result is `established`,
the coordination hash is created, and every member ends with
`status = coordinating` and `coordination_group = task_id`, while agents not
listed keep their state. -/
theorem C3_coordinate_agents :
    (∀ (s : RedisState) tid cid ids td,
      ids.filter (fun a => !(agentAvailable s a)) ≠ [] →
      coordinateAgentsScript s tid cid ids td =
        (.unavailableAgents (ids.filter (fun a => !(agentAvailable s a))), s)) ∧
    (∀ (s : RedisState) tid cid ids td,
      (∀ a ∈ ids, agentAvailable s a = true) →
      (coordinateAgentsScript s tid cid ids td).1 = .established tid ∧
      (∀ a ∈ ids,
        (coordinateAgentsScript s tid cid ids td).2.agentStatus a = some "coordinating" ∧
        (coordinateAgentsScript s tid cid ids td).2.agentCoordGroup a = some tid) ∧
      (∀ a, a ∉ ids →
        (coordinateAgentsScript s tid cid ids td).2.agentStatus a = s.agentStatus a ∧
        (coordinateAgentsScript s tid cid ids td).2.agentCoordGroup a = s.agentCoordGroup a) ∧
      (coordinateAgentsScript s tid cid ids td).2.coordCoordinator tid = some cid ∧
      (coordinateAgentsScript s tid cid ids td).2.coordStatus tid = some "active" ∧
      (coordinateAgentsScript s tid cid ids td).2.coordAgents tid = some ids ∧
      (coordinateAgentsScript s tid cid ids td).2.agentCurrentTask = s.agentCurrentTask) := by
  constructor
  · intro s tid cid ids td hne
    unfold coordinateAgentsScript
    have hlen : (ids.filter (fun a => !(agentAvailable s a))).length > 0 :=
      List.length_pos.mpr hne
    simp only [hlen, if_pos]
  · intro s tid cid ids td hall
    have hnil : ids.filter (fun a => !(agentAvailable s a)) = [] := by
      rw [List.filter_eq_nil_iff]
      intro a ha
      simp [hall a ha]
    unfold coordinateAgentsScript
    rw [hnil]
    simp only [List.length_nil, gt_iff_lt, lt_irrefl, if_false]
    refine ⟨by trivial, ?_, ?_, ?_, ?_, ?_, ?_⟩
    · intro a ha
      rw [coordFold_agentStatus, coordFold_agentCoordGroup]
      simp [ha]
    · intro a ha
      rw [coordFold_agentStatus, coordFold_agentCoordGroup]
      simp [ha, upd]
    · rw [(coordFold_coordHash tid ids _).1]
      simp
    · rw [(coordFold_coordHash tid ids _).2.1]
      simp
    · rw [(coordFold_coordHash tid ids _).2.2.1]
      simp
    · rw [(coordFold_coordHash tid ids _).2.2.2.2]

/-- Witness for `C3_coordinate_agents` at concrete inputs. -/
theorem C3_coordinate_agents_witness :
    coordinateAgentsScript freshRedis "t1" "coord1" ["a1"] "td" =
      (.unavailableAgents ["a1"], freshRedis) ∧
    (coordinateAgentsScript c1_idleState "t1" "coord1" ["a2"] "td").1 = .established "t1" := by
  constructor
  · exact C3_coordinate_agents.1 freshRedis "t1" "coord1" ["a1"] "td" (by decide)
  · exact (C3_coordinate_agents.2 c1_idleState "t1" "coord1" ["a2"] "td"
      (by intro a ha; simp at ha; subst ha; decide)).1

/-! ### C5 — ordered publish (confirmed) -/

/-- Sorted insertion grows the list by one. -/
theorem length_insertByScore (score : Int) (m : OrderedMsg) (l : List (Int × OrderedMsg)) :
    (insertByScore score m l).length = l.length + 1 := by
  induction l with
  | nil => rfl
  | cons p ps ih =>
    unfold insertByScore
    by_cases h : score < p.1
    · simp [h]
    · simp [h, ih]

/-- `ZADD` grows the log by at most one. -/
theorem zaddMsg_length_le (l : List (Int × OrderedMsg)) (score : Int) (m : OrderedMsg) :
    (zaddMsg l score m).length ≤ l.length + 1 := by
  unfold zaddMsg
  rw [length_insertByScore]
  have := List.length_filter_le (fun p : Int × OrderedMsg => p.2 ≠ m) l
  omega

/-- Serialized sequence of `ordered_message` calls on one channel, returning
the issued sequence numbers in call order. -/
def publishRepeat (ch : String) : List (String × String × String) → RedisState → List Int × RedisState
  | [], s => ([], s)
  | c :: cs, s =>
    ((orderedMessageScript s ch c.1 c.2.1 c.2.2).1.2 ::
        (publishRepeat ch cs (orderedMessageScript s ch c.1 c.2.1 c.2.2).2).1,
     (publishRepeat ch cs (orderedMessageScript s ch c.1 c.2.1 c.2.2).2).2)

/-- The sequence numbers issued by consecutive calls are the contiguous run
starting right after the channel's current counter. -/
theorem publishRepeat_seqs (ch : String) (cs : List (String × String × String)) (s : RedisState) :
    (publishRepeat ch cs s).1 =
      (List.range cs.length).map (fun i : Nat => s.channelSeq ch + 1 + (i : Int)) := by
  induction cs generalizing s with
  | nil => simp [publishRepeat]
  | cons c cs ih =>
    unfold publishRepeat
    rw [ih]
    simp only [orderedMessageScript, upd_same, List.length_cons, List.range_succ_eq_map,
      List.map_cons, List.map_map]
    congr 1
    · simp
    · apply List.map_congr_left
      intro i _
      simp only [Function.comp]
      push_cast
      ring

/-- The pre-trim log the script builds (`l1` in the model of the Lua script):
the prior log with the new encoded message inserted at its sequence score. -/
def orderedPreTrim (s : RedisState) (channel message sender timestamp : String) :
    List (Int × OrderedMsg) :=
  zaddMsg (s.channelMessages channel) (s.channelSeq channel + 1)
    { sequence := s.channelSeq channel + 1, sender := sender, message := message,
      timestamp := timestamp }

/-- The retained log is exactly the pre-trim log with its first
`length - 1000` entries removed: nothing when within the cap, the entries of
ranks `0 .. count - 1001` (`ZREMRANGEBYRANK`) when above it. -/
theorem orderedMessage_log_eq_drop (s : RedisState) (ch msg snd ts : String) :
    (orderedMessageScript s ch msg snd ts).2.channelMessages ch =
      (orderedPreTrim s ch msg snd ts).drop
        ((orderedPreTrim s ch msg snd ts).length - 1000) := by
  simp only [orderedMessageScript, orderedPreTrim, upd_same]
  set l1 := zaddMsg (s.channelMessages ch) (s.channelSeq ch + 1)
    { sequence := s.channelSeq ch + 1, sender := snd, message := msg, timestamp := ts } with hl1
  by_cases h : l1.length > 1000
  · rw [if_pos h]
  · rw [if_neg h, Nat.sub_eq_zero_of_le (by omega), List.drop_zero]

/-- The log ordering invariant: entries ascending by score.  Scores are the
issued sequence numbers, so an entry is older than another exactly when its
score is smaller; the zset iterates (and ranks) in this order. -/
def ScoresSorted (l : List (Int × OrderedMsg)) : Prop :=
  l.Pairwise (fun p q => p.1 ≤ q.1)

/-- Membership through sorted insertion. -/
theorem mem_insertByScore (score : Int) (m : OrderedMsg) (l : List (Int × OrderedMsg))
    (q : Int × OrderedMsg) :
    q ∈ insertByScore score m l ↔ q = (score, m) ∨ q ∈ l := by
  induction l with
  | nil => simp [insertByScore]
  | cons p ps ih =>
    unfold insertByScore
    by_cases h : score < p.1
    · simp [h]
    · rw [if_neg h]
      simp only [List.mem_cons, ih]
      tauto

/-- Sorted insertion preserves the ordering invariant. -/
theorem insertByScore_sorted (score : Int) (m : OrderedMsg) (l : List (Int × OrderedMsg))
    (hl : ScoresSorted l) : ScoresSorted (insertByScore score m l) := by
  induction l with
  | nil => simp [insertByScore, ScoresSorted]
  | cons p ps ih =>
    obtain ⟨hp, hps⟩ := List.pairwise_cons.mp hl
    unfold insertByScore
    by_cases h : score < p.1
    · rw [if_pos h]
      refine List.pairwise_cons.mpr ⟨?_, hl⟩
      intro q hq
      rcases List.mem_cons.mp hq with rfl | hq
      · exact le_of_lt h
      · exact le_trans (le_of_lt h) (hp q hq)
    · rw [if_neg h]
      refine List.pairwise_cons.mpr ⟨?_, ih hps⟩
      intro q hq
      rcases (mem_insertByScore score m ps q).mp hq with rfl | hq
      · exact not_lt.mp h
      · exact hp q hq

/-- `ZADD` preserves the ordering invariant. -/
theorem zaddMsg_sorted (l : List (Int × OrderedMsg)) (score : Int) (m : OrderedMsg)
    (hl : ScoresSorted l) : ScoresSorted (zaddMsg l score m) :=
  insertByScore_sorted score m _ (List.Pairwise.sublist (List.filter_sublist l) hl)

/-- Claim C5: each `ordered_message` call returns `prior sequence + 1` and
advances the per-channel counter to it, so consecutive calls issue strictly
increasing, gap-free, duplicate-free sequence numbers (the explicit contiguous
run `c+1, c+2, ...`); after every call the retained log of the published
channel holds at most 1000 entries; the retained log is exactly the pre-trim
log minus its first `length - 1000` entries; and on a score-sorted log the
eviction takes the oldest entries: the result is still sorted, and every
evicted entry's sequence is ≤ every retained entry's sequence. -/
theorem C5_ordered_publish :
    (∀ (s : RedisState) ch msg snd ts,
      (orderedMessageScript s ch msg snd ts).1 = (true, s.channelSeq ch + 1) ∧
      (orderedMessageScript s ch msg snd ts).2.channelSeq ch = s.channelSeq ch + 1 ∧
      ((orderedMessageScript s ch msg snd ts).2.channelMessages ch).length ≤ 1000) ∧
    (∀ ch cs (s : RedisState),
      (publishRepeat ch cs s).1 =
        (List.range cs.length).map (fun i : Nat => s.channelSeq ch + 1 + (i : Int))) ∧
    (∀ (s : RedisState) ch msg snd ts,
      (orderedMessageScript s ch msg snd ts).2.channelMessages ch =
        (orderedPreTrim s ch msg snd ts).drop
          ((orderedPreTrim s ch msg snd ts).length - 1000)) ∧
    (∀ (s : RedisState) ch msg snd ts,
      ScoresSorted (s.channelMessages ch) →
      ScoresSorted ((orderedMessageScript s ch msg snd ts).2.channelMessages ch) ∧
      (∀ p ∈ (orderedPreTrim s ch msg snd ts).take
          ((orderedPreTrim s ch msg snd ts).length - 1000),
       ∀ q ∈ (orderedMessageScript s ch msg snd ts).2.channelMessages ch, p.1 ≤ q.1)) := by
  refine ⟨?_, publishRepeat_seqs, orderedMessage_log_eq_drop, ?_⟩
  · intro s ch msg snd ts
    refine ⟨rfl, by simp [orderedMessageScript], ?_⟩
    simp only [orderedMessageScript, upd_same]
    set l1 := zaddMsg (s.channelMessages ch) (s.channelSeq ch + 1)
      { sequence := s.channelSeq ch + 1, sender := snd, message := msg, timestamp := ts } with hl1
    by_cases h : l1.length > 1000
    · rw [if_pos h, List.length_drop]
      omega
    · rw [if_neg h]
      omega
  · intro s ch msg snd ts hsorted
    have hpre : ScoresSorted (orderedPreTrim s ch msg snd ts) :=
      zaddMsg_sorted _ _ _ hsorted
    rw [orderedMessage_log_eq_drop]
    constructor
    · exact List.Pairwise.sublist (List.drop_sublist _ _) hpre
    · have hsplit : ScoresSorted
          ((orderedPreTrim s ch msg snd ts).take
              ((orderedPreTrim s ch msg snd ts).length - 1000) ++
            (orderedPreTrim s ch msg snd ts).drop
              ((orderedPreTrim s ch msg snd ts).length - 1000)) := by
        rw [List.take_append_drop]
        exact hpre
      exact (List.pairwise_append.mp hsplit).2.2

/-- Witness for `C5_ordered_publish` at a concrete sorted (empty) log. -/
theorem C5_ordered_publish_witness :
    ScoresSorted (freshRedis.channelMessages "room") ∧
    ScoresSorted ((orderedMessageScript freshRedis "room" "m1" "alice" "t0").2.channelMessages "room") := by
  refine ⟨List.Pairwise.nil, ?_⟩
  exact (C5_ordered_publish.2.2.2 freshRedis "room" "m1" "alice" "t0" List.Pairwise.nil).1

/-! ### C6 — disconnect and the document lock (corrected)

`disconnect` deletes entries of the in-process dict
`WebSocketManager._document_locks` (populated only by
`acquire_document_lock`).  The lock taken by a successful
`apply_document_edit` lives in the store under `lock:doc:<id>` and is a
different object entirely: no `WebSocketManager` method writes the store, so
a disconnect cannot release it (it only expires with its TTL).  Moreover,
after user A's successful edit the stored version has advanced past B's
stale `expected_version`, so B's edit is rejected by the version check before
the lock is even consulted. -/

/-- User A's connection, holding one in-process document lock on "d2". -/
def c6_mgr0 : ManagerState :=
  { emptyManager with
    connections := [("c1", { sessionId := "s1", connectionType := "user",
                             userId := some "A", agentId := none })]
    sessions := upd emptyManager.sessions "s1" ["c1"]
    userConnections := upd emptyManager.userConnections "A" ["c1"]
    documentLocks := [("d2", "A")] }

/-- A's successful edit on a fresh document "d" with `expected_version = 0`. -/
def c6_editA : EditResult × RedisState := documentEditScript freshRedis "d" "A" 0 "editA" 300 "t0"

/-- The manager after A's disconnect. -/
def c6_mgr1 : ManagerState := disconnect c6_mgr0 "c1"

/-- B's subsequent edit with the same `expected_version = 0` as before A's
edit (the store is whatever A's edit left; the disconnect never wrote to the
store). -/
def c6_editB : EditResult × RedisState := documentEditScript c6_editA.2 "d" "B" 0 "editB" 300 "t1"

/-- Claim C6 counterexample: A's edit succeeds and takes the store lock; after
A disconnects, B's edit with the pre-edit `expected_version` does not succeed
— it fails with "Version conflict" — and the store lock is still owned by A. -/
theorem C6_counterexample :
    c6_editA.1 = EditResult.applied 1 ∧
    c6_editB.1.ok = false ∧
    c6_editB.1 = EditResult.versionConflict 1 ∧
    c6_editA.2.lockDoc "d" = some ("A", 300) := by
  refine ⟨rfl, rfl, rfl, rfl⟩

/-- Claim C6, amended: disconnect releases exactly the in-process document
locks held by the connection's user (the map written by
`acquire_document_lock`); the store-side TTL lock taken by
`apply_document_edit` is untouched by the disconnect (no manager method
writes the store), and B's subsequent edit with the same `expected_version`
as before A's edit fails with "Version conflict" (the stored version
advanced), leaving the store unchanged. -/
theorem C6_disconnect_amended :
    c6_editA.1 = EditResult.applied 1 ∧
    c6_mgr0.documentLocks = [("d2", "A")] ∧
    c6_mgr1.documentLocks = [] ∧
    c6_editA.2.lockDoc "d" = some ("A", 300) ∧
    c6_editB.1 = EditResult.versionConflict 1 ∧
    c6_editB.2 = c6_editA.2 := by
  refine ⟨rfl, rfl, ?_, rfl, rfl, rfl⟩
  rfl

/-- `send_to_connection` never touches the lock map. -/
theorem sendToConnection_locks (m : ManagerState) (cid : String) (msg : WsMsg) :
    ((sendToConnection m cid msg).2).documentLocks = m.documentLocks := by
  unfold sendToConnection
  cases m.connections.lookup cid <;> rfl

/-- `broadcast_to_session` never touches the lock map. -/
theorem broadcastToSession_locks (m : ManagerState) (sid : String) (msg : WsMsg)
    (ex : Option String) :
    (broadcastToSession m sid msg ex).documentLocks = m.documentLocks := by
  unfold broadcastToSession
  generalize m.sessions sid = members
  induction members generalizing m with
  | nil => rfl
  | cons b bs ih =>
    rw [List.foldl_cons]
    by_cases h : some b = ex
    · rw [if_pos h]
      exact ih m
    · rw [if_neg h]
      rw [ih _]
      exact sendToConnection_locks m b msg

/-- Disconnect deletes precisely the user's in-process lock entries: the
general fact behind the amended claim, for any manager state and any
connection bound to a user. -/
theorem disconnect_releases_user_locks (m : ManagerState) (cid : String)
    (conn : WsConnection) (u : String)
    (hconn : m.connections.lookup cid = some conn) (huser : conn.userId = some u) :
    (disconnect m cid).documentLocks = m.documentLocks.filter (fun p => p.2 ≠ u) := by
  unfold disconnect
  rw [hconn]
  simp only [huser]
  cases hag : conn.agentId with
  | none => simp [broadcastToSession_locks]
  | some a => cases hsta : m.agentStates a <;> simp [hsta, broadcastToSession_locks]

/-! ### C9 — pause/resume ordering (confirmed) -/

/-- A connected agent X (post-`connect` state: status `connected`, not
paused, empty queue). -/
def c9_mgr : ManagerState :=
  { emptyManager with
    connections := [("cx", { sessionId := "s1", connectionType := "agent",
                             userId := none, agentId := some "X" })]
    sessions := upd emptyManager.sessions "s1" ["cx"]
    agentConnections := upd emptyManager.agentConnections "X" (some "cx")
    agentStates := upd emptyManager.agentStates "X"
      (some { status := "connected", paused := false, currentTask := none }) }

/-- Pause X, send three payloads, resume X. -/
def c9_run (m1 m2 m3 : String) : ManagerState :=
  let s1 := (pauseAgent c9_mgr "X").2
  let s2 := (sendToAgent s1 "X" (.payload m1)).2
  let s3 := (sendToAgent s2 "X" (.payload m2)).2
  let s4 := (sendToAgent s3 "X" (.payload m3)).2
  (resumeAgent s4 "X").2

set_option maxHeartbeats 2000000 in
/-- Claim C9: while an agent is paused, every message destined for it is
appended to its FIFO queue instead of being delivered; and after pausing X,
sending M1, M2, M3 and resuming, X's transport receives exactly the pause
notification, then M1, M2, M3 in send order, then the resume notification —
each of M1, M2, M3 delivered exactly once, in order, with an empty queue left
behind. -/
theorem C9_pause_resume_order :
    (∀ (m : ManagerState) aid msg cid st,
      m.agentConnections aid = some cid →
      m.agentStates aid = some st → st.paused = true →
      sendToAgent m aid msg =
        (true, { m with messageQueues := upd m.messageQueues aid (m.messageQueues aid ++ [msg]) })) ∧
    (∀ m1 m2 m3 : String,
      (c9_run m1 m2 m3).delivered "cx" =
        [.control "pause", .payload m1, .payload m2, .payload m3, .control "resume"] ∧
      (c9_run m1 m2 m3).messageQueues "X" = []) := by
  constructor
  · intro m aid msg cid st hconn hstate hpaused
    unfold sendToAgent
    rw [hconn, hstate]
    simp [hpaused]
  · intro m1 m2 m3
    exact ⟨rfl, rfl⟩

/-- Agent X paused. -/
def c9_pausedMgr : ManagerState :=
  { c9_mgr with
    agentStates := upd c9_mgr.agentStates "X"
      (some { status := "connected", paused := true, currentTask := none }) }

/-- Witness for `C9_pause_resume_order` at a concrete paused agent. -/
theorem C9_pause_resume_order_witness :
    sendToAgent c9_pausedMgr "X" (.payload "hello") =
      (true, { c9_pausedMgr with
               messageQueues := upd c9_pausedMgr.messageQueues "X"
                 (c9_pausedMgr.messageQueues "X" ++ [.payload "hello"]) }) :=
  C9_pause_resume_order.1 c9_pausedMgr "X" (.payload "hello") "cx"
    { status := "connected", paused := true, currentTask := none } rfl rfl rfl

/-! ### C7 — iteration fail-safe (code bug)

`_should_complete` reads `metadata.get("iteration", 0)` and compares it to
`max_iterations`, but nothing in the repository ever writes the `iteration`
key: `_supervisor_node` does not increment it and no other node touches
`metadata["iteration"]`.  The fail-safe can therefore never fire on its own,
and a Reasoning collaborator that never chooses `complete` cycles the machine
forever. -/

/-- A Reasoning collaborator that always answers `gather_more_info`. -/
def gatherOracle : Nat → Except String String :=
  fun _ => Except.ok "Action: gather_more_info"

/-- An empty agent registry (never consulted by the gather cycle). -/
def noRegistry : String → Option (Except String (List AgentEvent)) :=
  fun _ => none

/-- Entry state of a run over one user message with an empty config. -/
def c7_init : MachineState :=
  { node := .supervisorN, conv := initialConvState [ChatMessage.human "hello"] emptyMetadata,
    calls := 0 }

/-- The machine after `n` steps under the always-gather oracle (defaults:
`max_iterations = 50`, no auto-approve). -/
def c7_run (n : Nat) : MachineState := runMachine gatherOracle noRegistry false 50 n c7_init

/-- The invariant of the supervisor/gather cycle. -/
def C7Inv (ms : MachineState) : Prop :=
  (ms.node = GraphNode.supervisorN ∨ ms.node = GraphNode.gatherInfoN) ∧
  ms.conv.approvalPending = none ∧ ms.conv.taskQueue = [] ∧ ms.conv.completedTasks = [] ∧
  ms.conv.metadata.iteration = none ∧ ms.conv.metadata.complete = false ∧
  ms.conv.finalOutput = none

/-- The decision the always-gather response parses to. -/
def gatherDecision : SupervisorDecision :=
  { action := .gather_more_info, agent := none, reason := "No reason provided",
    task := none, requiresApproval := false }

/-- The always-gather response parses to a bare `gather_more_info` decision. -/
theorem parse_gather : parseDecision "Action: gather_more_info" = gatherDecision := by
  decide

/-- One machine step preserves the gather-cycle invariant. -/
theorem C7Inv_step (ms : MachineState) (h : C7Inv ms) :
    C7Inv (stepMachine gatherOracle noRegistry false 50 ms) := by
  obtain ⟨hnode, hap, htq, hct, hit, hcm, hfo⟩ := h
  rcases hnode with hn | hn
  · have hsc : shouldComplete 50 ms.conv = false := by
      unfold shouldComplete
      rw [hit, htq, hct, hcm]
      decide
    have hdec : supervisorNode (gatherOracle ms.calls) 50 ms.conv =
        { ms.conv with metadata :=
          { ms.conv.metadata with
            lastDecision := some gatherDecision
            action := some SupervisorAction.gather_more_info } } := by
      unfold supervisorNode
      rw [hap, hsc]
      simp [gatherOracle, makeDecision, parse_gather, gatherDecision, hap]
    unfold stepMachine
    rw [hn]
    rw [hdec]
    refine ⟨Or.inr ?_, hap, htq, hct, hit, hcm, hfo⟩
    simp [supervisorRouter, actionTarget]
  · unfold stepMachine
    rw [hn]
    exact ⟨Or.inl rfl, by simp [gatherInfoNode, hap], by simp [gatherInfoNode, htq],
      by simp [gatherInfoNode, hct], by simp [gatherInfoNode, hit],
      by simp [gatherInfoNode, hcm], by simp [gatherInfoNode, hfo]⟩

/-- The invariant holds along the whole run. -/
theorem C7Inv_run (n : Nat) : C7Inv (c7_run n) := by
  suffices h : ∀ k ms, C7Inv ms → C7Inv (runMachine gatherOracle noRegistry false 50 k ms) by
    refine h n c7_init ?_
    exact ⟨Or.inl rfl, rfl, rfl, rfl, rfl, rfl, rfl⟩
  intro k
  induction k with
  | zero => intro ms h; exact h
  | succ k ih =>
    intro ms h
    exact ih _ (C7Inv_step ms h)

/-- Claim C7 (code bug): no supervisor pass ever changes
`metadata["iteration"]` (the code never writes the key it checks), and under
a Reasoning collaborator that never chooses `complete` the machine cycles
between `SUPERVISOR` and `GATHER_INFO` forever: after any number of steps it
has reached neither `FINALIZE` nor `END`, `iteration` is still unset, and no
final output exists — the claimed bounded termination fails. -/
theorem C7_iteration_never_incremented :
    (∀ llmResult max_iterations (st : ConvState),
      (supervisorNode llmResult max_iterations st).metadata.iteration = st.metadata.iteration) ∧
    (∀ n : Nat,
      (c7_run n).node ≠ GraphNode.finalizeN ∧ (c7_run n).node ≠ GraphNode.endN ∧
      (c7_run n).conv.metadata.iteration = none ∧ (c7_run n).conv.finalOutput = none) := by
  constructor
  · intro llmResult max_iterations st
    unfold supervisorNode
    by_cases hap : st.approvalPending.isSome
    · rw [if_pos hap]
    · rw [if_neg hap]
      by_cases hsc : shouldComplete max_iterations st = true
      · simp [hsc]
      · simp only [Bool.not_eq_true] at hsc
        simp only [hsc, if_false]
        cases (makeDecision llmResult).agent <;>
          cases (makeDecision llmResult).task <;>
            by_cases hra : (makeDecision llmResult).requiresApproval <;>
              simp [hra]
  · intro n
    obtain ⟨hnode, -, -, -, hit, -, hfo⟩ := C7Inv_run n
    rcases hnode with hn | hn <;>
      exact ⟨by rw [hn]; decide, by rw [hn]; decide, hit, hfo⟩

/-! ### C8 — Reasoning failure handling (corrected)

`_make_decision` catches the collaborator's exception and falls back to
`complete` with the error as the decision's `reason`, and the router then
sends the run to `FINALIZE` — but no message is appended to the conversation
at the catch site: the error string survives only in
`metadata["last_decision"]`, and `FINALIZE` appends a generic final message
that does not mention it.  An unparseable response likewise yields `complete`,
with the default reason `"No reason provided"`. -/

/-- A Reasoning collaborator that always raises. -/
def errOracle : Nat → Except String String :=
  fun _ => Except.error "boom"

/-- Entry state of a run over one user message with an empty config. -/
def c8_init : MachineState :=
  { node := .supervisorN, conv := initialConvState [ChatMessage.human "hi"] emptyMetadata,
    calls := 0 }

/-- The machine after the supervisor pass with the erroring collaborator. -/
def c8_after1 : MachineState := stepMachine errOracle noRegistry false 50 c8_init

/-- ... and after the finalize node that follows. -/
def c8_after2 : MachineState := stepMachine errOracle noRegistry false 50 c8_after1

/-- Claim C8 counterexample: when the Reasoning collaborator raises, the
decision step appends no message at all to the conversation (the messages
list is unchanged), and the finalize node that follows appends only the
generic "Workflow completed" — which does not contain the error text — so
"a descriptive message is appended to the conversation" fails on the code. -/
theorem C8_counterexample :
    c8_after1.conv.messages = c8_init.conv.messages ∧
    c8_after1.node = GraphNode.finalizeN ∧
    c8_after2.conv.messages = [ChatMessage.human "hi", ChatMessage.ai "Workflow completed" none] ∧
    hasSub "boom" "Workflow completed" = false := by
  decide

/-- Claim C8, amended: when the Reasoning collaborator raises, the decision
step never propagates the exception: it produces the `complete` action with
the error recorded as the decision's reason in `metadata["last_decision"]`
(not as a conversation message — the messages list is unchanged), and the
router sends the machine to `FINALIZE`; an unparseable response likewise
yields `complete`, with the default reason "No reason provided". -/
theorem C8_decision_failure_amended :
    (∀ (e : String) max_iterations (st : ConvState),
      st.approvalPending = none → shouldComplete max_iterations st = false →
      (supervisorNode (Except.error e) max_iterations st).messages = st.messages ∧
      (supervisorNode (Except.error e) max_iterations st).metadata.action =
        some SupervisorAction.complete ∧
      (supervisorNode (Except.error e) max_iterations st).metadata.lastDecision =
        some { action := .complete, agent := none, reason := "Error making decision: " ++ e,
               task := none, requiresApproval := false } ∧
      actionTarget (supervisorRouter (supervisorNode (Except.error e) max_iterations st)) =
        GraphNode.finalizeN) ∧
    (parseDecision "garbage without keywords").action = SupervisorAction.complete ∧
    (parseDecision "garbage without keywords").reason = "No reason provided" := by
  refine ⟨?_, by decide, by decide⟩
  intro e max_iterations st hap hsc
  refine ⟨?_, ?_, ?_, ?_⟩ <;>
    simp [supervisorNode, hap, hsc, makeDecision, supervisorRouter, actionTarget]

/-- Witness for `C8_decision_failure_amended` at concrete inputs. -/
theorem C8_decision_failure_amended_witness :
    (supervisorNode (Except.error "boom") 50 c8_init.conv).messages = c8_init.conv.messages ∧
    (supervisorNode (Except.error "boom") 50 c8_init.conv).metadata.action =
      some SupervisorAction.complete ∧
    actionTarget (supervisorRouter (supervisorNode (Except.error "boom") 50 c8_init.conv)) =
      GraphNode.finalizeN := by
  obtain ⟨h1, h2, h3, h4⟩ :=
    C8_decision_failure_amended.1 "boom" 50 c8_init.conv rfl (by decide)
  exact ⟨h1, h2, h4⟩

/-- Witness for `C7_iteration_never_incremented` at concrete inputs: after 20
steps the always-gather run has still not finalized and `iteration` is still
unset. -/
theorem C7_iteration_never_incremented_witness :
    (supervisorNode (Except.ok "Action: complete") 50 c8_init.conv).metadata.iteration =
      c8_init.conv.metadata.iteration ∧
    (c7_run 20).node ≠ GraphNode.finalizeN ∧
    (c7_run 20).conv.metadata.iteration = none :=
  ⟨C7_iteration_never_incremented.1 (Except.ok "Action: complete") 50 c8_init.conv,
   (C7_iteration_never_incremented.2 20).1,
   (C7_iteration_never_incremented.2 20).2.2.1⟩
